import Mathlib

/-!
Verification of the authorization-policy engine of
`packages/core/src/authorization.ts` (plumier).

The TypeScript source is shallowly embedded: JavaScript runtime values
become the inductive `JsVal`, reflection metadata becomes explicit
descriptor lists (`ClassEnv`, `PropM`, `Decor`), asynchronous functions
that may throw become functions into `Except Err`, and the process-wide
mutable `config.authPolicies` array is threaded explicitly as a state
component (`PState`).  Every policy-evaluator invocation is additionally
recorded in a trace list (the source logs each invocation through its
debug logger), which makes evaluation order and short-circuiting
observable in theorems.  Concurrent `Promise.all` fan-outs are
sequentialised in program order.
-/

/-- JavaScript runtime values, restricted to the shapes the
authorization engine inspects. -/
inductive JsVal where
  | null : JsVal
  | undefined : JsVal
  | num : Int → JsVal
  | str : String → JsVal
  | bool : Bool → JsVal
  | obj : List (String × JsVal) → JsVal
  | arr : List JsVal → JsVal

/-- `value === undefined || value === null`. -/
def isAbsent : JsVal → Bool
  | .null => true
  | .undefined => true
  | _ => false

/-- `value === undefined`. -/
def isUndefined : JsVal → Bool
  | .undefined => true
  | _ => false

/-- Property access `value[name]`: a field of an object, `undefined`
otherwise (primitives and arrays have no model fields). -/
def getField (v : JsVal) (name : String) : JsVal :=
  match v with
  | .obj fields =>
    match fields.find? (fun f => f.1 == name) with
    | some f => f.2
    | none => .undefined
  | _ => .undefined

/-- The elements iterated by `for (let i = 0; i < value.length; i++)`:
the elements for an array, nothing for any other value. -/
def jsElems : JsVal → List JsVal
  | .arr es => es
  | _ => []

/-- JavaScript truthiness of a value (used by `raw.status === 200 && raw.body`). -/
def jsTruthy : JsVal → Bool
  | .null => false
  | .undefined => false
  | .bool b => b
  | .num n => n != 0
  | .str s => s != ""
  | .obj _ => true
  | .arr _ => true

/-- `raw.constructor.name`; `none` models the TypeError raised on
`null`/`undefined`. -/
def ctorName : JsVal → Option String
  | .null => none
  | .undefined => none
  | .num _ => some "Number"
  | .str _ => some "String"
  | .bool _ => some "Boolean"
  | .obj _ => some "Object"
  | .arr _ => some "Array"

mutual

/-- Nesting depth of a value; used as the termination measure of the
recursive parameter walk. -/
def jsDepth : JsVal → Nat
  | .null => 0
  | .undefined => 0
  | .num _ => 1
  | .str _ => 1
  | .bool _ => 1
  | .obj fields => 1 + jsDepthFields fields
  | .arr es => 1 + jsDepthList es

def jsDepthList : List JsVal → Nat
  | [] => 0
  | v :: vs => max (jsDepth v) (jsDepthList vs)

def jsDepthFields : List (String × JsVal) → Nat
  | [] => 0
  | f :: fs => max (jsDepth f.2) (jsDepthFields fs)

end

/-- Access modifier of an authorize decorator (`AccessModifier`). -/
inductive Access where
  | route
  | read
  | write
deriving DecidableEq

/-- Attachment location of an authorize decorator. -/
inductive DecLoc where
  | classLoc
  | methodLoc
  | paramLoc
deriving DecidableEq

/-- The payload of a `plumier-meta:authorize` decorator
(`AuthorizeDecorator`). -/
structure AuthDec where
  policies : List String
  access : Access
  location : DecLoc
  tag : String
deriving DecidableEq

/-- Decorators attached to classes, properties and parameters by the
reflection layer. -/
inductive Decor where
  | auth : AuthDec → Decor
  | relation : Decor
  | entityId : Decor
  | other : Decor
deriving DecidableEq

/-- Kind of the metadata node currently being evaluated
(`kind` of a reflection descriptor). -/
inductive MKind where
  | klass
  | method
  | property
  | parameter
deriving DecidableEq

/-- `kind.toLowerCase()` (the `Class` kind is rendered separately). -/
def MKind.lower : MKind → String
  | .klass => "class"
  | .method => "method"
  | .property => "property"
  | .parameter => "parameter"

/-- Classes are identified by their index into the reflection
environment; JavaScript reference equality of classes becomes equality
of indices. -/
abbrev ClassId := Nat

/-- Declared type of a property or parameter. -/
inductive TType where
  | prim : TType
  | cls : ClassId → TType
  | arr : TType → TType

/-- `isCustomClass(type)`. -/
def isCustomClass : TType → Bool
  | .cls _ => true
  | _ => false

/-- A property or parameter descriptor
(`PropertyReflection | ParameterReflection`). -/
structure PropM where
  name : String
  kind : MKind
  typ : TType
  decorators : List Decor

/-- A class descriptor (`ClassReflection`). -/
structure ClassDef where
  name : String
  decorators : List Decor
  properties : List PropM

/-- The reflection environment: every class reachable by the engine. -/
abbrev ClassEnv := List ClassDef

/-- `reflect(type)`: classes outside the environment are modelled as
having no members. -/
def classDef (env : ClassEnv) (c : ClassId) : ClassDef :=
  (env.get? c).getD ⟨"?", [], []⟩

/-- `type.name`. -/
def className (env : ClassEnv) (c : ClassId) : String :=
  (classDef env c).name

/-- `metadata.current`: the descriptor the evaluation is anchored at,
with its owning class. -/
structure MetaCur where
  kind : MKind
  name : String
  parent : Option ClassId
deriving DecidableEq

/-- The authorization context handed to policies (`AuthorizationContext`);
`user` is the authenticated identity (`state.user`), `method` the HTTP
method of the request, and `entityProvider` the action's
`plumier-meta:entity-policy-provider` decorator if any. -/
structure AuthCtx where
  user : Option JsVal
  access : Access
  method : String
  value : JsVal
  parentValue : JsVal
  current : Option MetaCur
  controllerId : ClassId
  actionName : String
  entityProvider : Option (ClassId × String)
  actionParams : List (String × JsVal)

/-- A value thrown by user-supplied evaluator code: an `Error` carrying
its `stack`, or any other throwable already rendered to a string. -/
inductive Thrown where
  | err : String → Thrown
  | nonErr : String → Thrown

/-- `e instanceof Error ? e.stack : e`. -/
def thrownMessage : Thrown → String
  | .err stack => stack
  | .nonErr s => s

/-- Errors surfaced by the engine: `HttpStatusError` denials and plain
`Error`s (configuration and wrapped policy-execution failures). -/
inductive Err where
  | http : Nat → String → Err
  | plain : String → Err
deriving DecidableEq

/-- Modelled from the spec: the `HttpStatus` enum of `./http-status` is
not under `src/`; the spec fixes Forbidden to 403. -/
def HttpStatus.Forbidden : Nat := 403

/-- Modelled from the spec: the `HttpStatus` enum of `./http-status` is
not under `src/`; the spec fixes Unauthorized to 401. -/
def HttpStatus.Unauthorized : Nat := 401

/-- `throwAuthError`: 403 when the context has no user, 401 otherwise.
Returned rather than thrown; callers put it on the error channel. -/
def throwAuthError (info : AuthCtx) (msg : Option String) : Err :=
  match info.user with
  | none => .http HttpStatus.Forbidden (msg.getD "Forbidden")
  | some _ => .http HttpStatus.Unauthorized (msg.getD "Unauthorized")

/-- `getErrorLocation(metadata)`; the source dereferences
`metadata.current!` (and `current.parent!`), whose absence would be a
runtime crash, rendered here as `"undefined"`. -/
def getErrorLocation (env : ClassEnv) (ctx : AuthCtx) : String :=
  match ctx.current with
  | none => "undefined"
  | some cur =>
    if cur.kind = .klass then "class " ++ cur.name
    else
      cur.kind.lower ++ " " ++
        (match cur.parent with
         | some p => className env p
         | none => "undefined") ++ "." ++ cur.name

/-- An authorization policy: the closed set of source classes
(`CustomAuthPolicy` and its builtin subclasses, `EntityAuthPolicy`). -/
inductive AuthPolicy where
  | custom : String → (AuthCtx → Except Thrown Bool) → AuthPolicy
  | entity : String → ClassId → (AuthCtx → JsVal → Except Thrown Bool) → AuthPolicy

/-- `this.name` of a policy instance. -/
def AuthPolicy.name : AuthPolicy → String
  | .custom n _ => n
  | .entity n _ _ => n

/-- `PublicAuthPolicy`. -/
def PublicAuthPolicy : AuthPolicy := .custom "Public" (fun _ => .ok true)

/-- `AuthenticatedAuthPolicy`. -/
def AuthenticatedAuthPolicy : AuthPolicy :=
  .custom "Authenticated" (fun ctx => .ok ctx.user.isSome)

/-- `ReadonlyAuthPolicy`. -/
def ReadonlyAuthPolicy : AuthPolicy :=
  .custom "plumier::readonly" (fun _ => .ok false)

/-- `WriteonlyAuthPolicy`. -/
def WriteonlyAuthPolicy : AuthPolicy :=
  .custom "plumier::writeonly" (fun _ => .ok false)

/-- Look an action parameter value up by name
(`ctx.metadata.actionParams.get(name)`). -/
def lookupParam (params : List (String × JsVal)) (name : String) : JsVal :=
  match params.find? (fun p => p.1 == name) with
  | some p => p.2
  | none => .undefined

/-- `EntityAuthPolicy.getEntity`: resolve the entity type and identifier
from the context; may throw configuration errors. -/
def getEntity (env : ClassEnv) (ctx : AuthCtx) : Except Err (ClassId × JsVal) :=
  if ctx.access = .route ∨ ctx.access = .write then
    match ctx.entityProvider with
    | none =>
      .error (.plain ("Action " ++ className env ctx.controllerId ++ "." ++
        ctx.actionName ++ " doesn\x27t have Entity Policy Provider information"))
    | some (ent, idParam) => .ok (ent, lookupParam ctx.actionParams idParam)
  else
    match ctx.current.bind (fun cur => cur.parent) with
    | none => .error (.plain "TypeError: Cannot read properties of undefined")
    | some entity =>
      match (classDef env entity).properties.find?
          (fun p => p.decorators.contains .entityId) with
      | none =>
        .error (.plain ("Entity " ++ className env entity ++
          " doesn\x27t have primary ID information required for entity policy"))
      | some prop => .ok (entity, getField ctx.parentValue prop.name)

/-- `equals(id, ctx)` of a policy: name match, plus entity match for
entity policies (which resolves the entity from the context and may
throw). -/
def policyEquals (p : AuthPolicy) (id : String) (env : ClassEnv) (ctx : AuthCtx) :
    Except Err Bool :=
  match p with
  | .custom n _ => .ok (id == n)
  | .entity n e _ =>
    if id == n then (getEntity env ctx).map (fun pr => pr.1 == e)
    else .ok false

/-- `authorize(ctx)` of a policy: run the user evaluator, wrapping any
thrown value with the policy name and error location.  For entity
policies `getEntity` runs outside the try block, so its configuration
errors propagate unwrapped. -/
def policyAuthorize (p : AuthPolicy) (env : ClassEnv) (ctx : AuthCtx) :
    Except Err Bool :=
  match p with
  | .custom n ev =>
    match ev ctx with
    | .ok b => .ok b
    | .error thrown =>
      .error (.plain ("Error occur inside authorization policy " ++ n ++
        " on " ++ getErrorLocation env ctx ++ " \n " ++ thrownMessage thrown))
  | .entity n e ev =>
    match getEntity env ctx with
    | .error err => .error err
    | .ok pr =>
      match ev ctx pr.2 with
      | .ok b => .ok b
      | .error thrown =>
        .error (.plain ("Error occur inside authorization policy " ++ n ++
          " for entity " ++ className env e ++ " on " ++
          getErrorLocation env ctx ++ " \n " ++ thrownMessage thrown))

/-- `conflict(other)` of a policy. -/
def AuthPolicy.conflict : AuthPolicy → AuthPolicy → Bool
  | .custom n _, other => n == other.name
  | .entity n e _, .entity n2 e2 _ => n == n2 && e == e2
  | .entity n _ _, .custom n2 _ => n == n2

/-- The shared mutable `config.authPolicies` array, threaded as state. -/
abbrev PState := List AuthPolicy

/-- Inner loop of `PolicyAuthorizer.authorize`: try every requested key
against one policy, short-circuiting on the first evaluator `true`.  The
second component records each evaluator invocation (the source's debug
log). -/
def runKeys (p : AuthPolicy) (keys : List String) (env : ClassEnv) (ctx : AuthCtx) :
    Except Err Bool × List String :=
  match keys with
  | [] => (.ok false, [])
  | k :: rest =>
    match policyEquals p k env ctx with
    | .error e => (.error e, [])
    | .ok false => runKeys p rest env ctx
    | .ok true =>
      match policyAuthorize p env ctx with
      | .error e => (.error e, [p.name])
      | .ok true => (.ok true, [p.name])
      | .ok false =>
        let r := runKeys p rest env ctx
        (r.1, p.name :: r.2)

/-- Outer loop of `PolicyAuthorizer.authorize` over the (already
reversed) policy list, short-circuiting on the first `true`. -/
def runPolicies (l : List AuthPolicy) (keys : List String) (env : ClassEnv)
    (ctx : AuthCtx) : Except Err Bool × List String :=
  match l with
  | [] => (.ok false, [])
  | p :: rest =>
    match runKeys p keys env ctx with
    | (.error e, t) => (.error e, t)
    | (.ok true, t) => (.ok true, t)
    | (.ok false, t) =>
      let r := runPolicies rest keys env ctx
      (r.1, t ++ r.2)

/-- `PolicyAuthorizer.authorize`: `this.policies.reverse()` both
reverses the shared array in place (the returned `PState`) and yields
the iteration order of the loop. -/
def PolicyAuthorizer.authorize (ps : PState) (keys : List String) (env : ClassEnv)
    (ctx : AuthCtx) : Except Err Bool × List String × PState :=
  let rev := ps.reverse
  let r := runPolicies rev keys env ctx
  (r.1, r.2, rev)

/-- Decorators of the given access kind
(`createDecoratorFilter(x => x.access === acc)`). -/
def authDecs (acc : Access) (decs : List Decor) : List AuthDec :=
  decs.filterMap (fun d =>
    match d with
    | .auth a => if a.access = acc then some a else none
    | _ => none)

/-- `executeAuthorizer`: flatten the decorators' policy-name lists and
run one `PolicyAuthorizer` against the shared policy array. -/
def executeAuthorizer (decs : List AuthDec) (env : ClassEnv) (info : AuthCtx)
    (ps : PState) : Except Err Bool × List String × PState :=
  PolicyAuthorizer.authorize ps ((decs.map AuthDec.policies).flatten) env info

/-- `getGlobalDecorators`: synthesize one route decorator from the
configured global default (a single name is modelled as a singleton
list). -/
def getGlobalDecorators (g : List String) : List AuthDec :=
  [{ policies := g, access := .route, location := .methodLoc,
     tag := String.intercalate "|" g }]

/-- Route metadata (`RouteInfo`), reduced to what the engine reads. -/
structure ActionM where
  name : String
  decorators : List Decor
  parameters : List PropM

/-- Route metadata (`RouteInfo`). -/
structure RouteInfo where
  controllerId : ClassId
  action : ActionM

/-- `getRouteAuthorizeDecorators`: action decorators win, then
controller decorators, then the synthesized global default, else none. -/
def getRouteAuthorizeDecorators (env : ClassEnv) (route : RouteInfo)
    (globalDecorator : Option (List String)) : List AuthDec :=
  let actionDecs := authDecs .route route.action.decorators
  if !actionDecs.isEmpty then actionDecs
  else
    let controllerDecs := authDecs .route (classDef env route.controllerId).decorators
    if !controllerDecs.isEmpty then controllerDecs
    else
      match globalDecorator with
      | none => []
      | some g => getGlobalDecorators g

/-- `fixContext`: point `metadata.current` at the controller class or
the action method according to the decorator's location. -/
def fixContext (d : AuthDec) (info : AuthCtx) (env : ClassEnv) : AuthCtx :=
  match d.location with
  | .classLoc =>
    { info with current := some ⟨.klass, className env info.controllerId, none⟩ }
  | .methodLoc =>
    { info with current := some ⟨.method, info.actionName, some info.controllerId⟩ }
  | .paramLoc => info

/-- The `Promise.all` over `decorators.map(x => executeAuthorizer(x,
fixContext(x, info)))`, sequentialised in program order. -/
def routeConds (decs : List AuthDec) (env : ClassEnv) (info : AuthCtx)
    (ps : PState) : Except Err (List Bool) × List String × PState :=
  match decs with
  | [] => (.ok [], [], ps)
  | d :: rest =>
    match executeAuthorizer [d] env (fixContext d info env) ps with
    | (.error e, t, ps1) => (.error e, t, ps1)
    | (.ok b, t, ps1) =>
      match routeConds rest env info ps1 with
      | (.error e, t2, ps2) => (.error e, t ++ t2, ps2)
      | (.ok bs, t2, ps2) => (.ok (b :: bs), t ++ t2, ps2)

/-- `checkUserAccessToRoute`: pass if any decorator authorizes,
otherwise throw via `throwAuthError`. -/
def checkUserAccessToRoute (decs : List AuthDec) (env : ClassEnv) (info : AuthCtx)
    (ps : PState) : Except Err Unit × List String × PState :=
  match routeConds decs env info ps with
  | (.error e, t, ps1) => (.error e, t, ps1)
  | (.ok conds, t, ps1) =>
    if conds.any (fun x => x) then (.ok (), t, ps1)
    else (.error (throwAuthError info none), t, ps1)

/-- `ParamCheckContext`. -/
structure PCtx where
  path : List String
  info : AuthCtx
  parent : ClassId
  parentValue : JsVal

/-- `createContext`: clone the request context, pointing it at the
value and descriptor currently being checked. -/
def createContext (ctx : PCtx) (value : JsVal) (meta : PropM) : AuthCtx :=
  { ctx.info with
    value := value
    parentValue := ctx.parentValue
    current := some ⟨meta.kind, meta.name, some ctx.parent⟩ }

/-- `x.kind === "plumier-meta:relation"`. -/
def isRelationDec : Decor → Bool
  | .relation => true
  | _ => false

lemma jsDepth_le_fields (fields : List (String × JsVal)) (f : String × JsVal)
    (hf : f ∈ fields) : jsDepth f.2 ≤ jsDepthFields fields := by
  induction fields with
  | nil => cases hf
  | cons g gs ih =>
    rcases List.mem_cons.mp hf with h | h
    · subst h; simp [jsDepthFields, le_max_iff]
    · simp [jsDepthFields, le_max_iff]; exact Or.inr (ih h)

lemma jsDepth_pos_of_not_absent (v : JsVal) (hv : isAbsent v = false) :
    1 ≤ jsDepth v := by
  cases v <;> simp_all [isAbsent, jsDepth]

lemma jsDepth_getField_lt (v : JsVal) (n : String) (hv : isAbsent v = false) :
    jsDepth (getField v n) < jsDepth v := by
  cases v with
  | null => simp [isAbsent] at hv
  | undefined => simp [isAbsent] at hv
  | obj fields =>
    simp only [getField]
    cases hfind : fields.find? (fun f => f.1 == n) with
    | none => simp [jsDepth]
    | some f =>
      have hmem := List.mem_of_find?_eq_some hfind
      have := jsDepth_le_fields fields f hmem
      simp [jsDepth]; omega
  | num m => simp [getField, jsDepth]
  | str s => simp [getField, jsDepth]
  | bool b => simp [getField, jsDepth]
  | arr es => simp [getField, jsDepth]

lemma jsDepth_le_list (es : List JsVal) (e : JsVal) (he : e ∈ es) :
    jsDepth e ≤ jsDepthList es := by
  induction es with
  | nil => cases he
  | cons g gs ih =>
    rcases List.mem_cons.mp he with h | h
    · subst h; simp [jsDepthList, le_max_iff]
    · simp [jsDepthList, le_max_iff]; exact Or.inr (ih h)

lemma jsDepthList_tail_le (e : JsVal) (es : List JsVal) :
    jsDepthList es ≤ jsDepthList (e :: es) := by
  simp [jsDepthList, le_max_iff]

lemma jsDepthList_lt_of_forall (l : List JsVal) (b : Nat) (hb : 1 ≤ b)
    (h : ∀ x ∈ l, jsDepth x < b) : jsDepthList l < b := by
  induction l with
  | nil => simpa [jsDepthList] using hb
  | cons v vs ih =>
    have h1 := h v (List.mem_cons_self v vs)
    have h2 := ih (fun x hx => h x (List.mem_cons_of_mem v hx))
    simp [jsDepthList]; omega

lemma jsDepthList_map_getField (v : JsVal) (props : List PropM)
    (hv : isAbsent v = false) :
    1 + jsDepthList (props.map (fun p => getField v p.name)) ≤ jsDepth v := by
  have hpos := jsDepth_pos_of_not_absent v hv
  have : jsDepthList (props.map (fun p => getField v p.name)) < jsDepth v := by
    apply jsDepthList_lt_of_forall _ _ hpos
    intro x hx
    rcases List.mem_map.mp hx with ⟨p, _, rfl⟩
    exact jsDepth_getField_lt v p.name hv
  omega

lemma jsDepth_elems_le (v : JsVal) (hv : isAbsent v = false) :
    1 + jsDepthList (jsElems v) ≤ jsDepth v := by
  cases v <;> simp_all [isAbsent, jsElems, jsDepth, jsDepthList]

mutual

/-- `checkParameter`: the recursive write-access walk over one
parameter or property value.  Returns the unauthorized paths found
below this value, the evaluator-invocation trace, and the policy-array
state. -/
def checkParameter (meta : PropM) (value : JsVal) (ctx : PCtx) (env : ClassEnv)
    (ps : PState) : Except Err (List String) × List String × PState :=
  if hv : isAbsent value then (.ok [], [], ps)
  else if ctx.info.method == "GET" then (.ok [], [], ps)
  else
    let decs := authDecs .write meta.decorators
    let step :=
      if decs.isEmpty then ((.ok true : Except Err Bool), ([] : List String), ps)
      else executeAuthorizer decs env (createContext ctx value meta) ps
    match step with
    | (.error e, t, ps1) => (.error e, t, ps1)
    | (.ok allowed, t, ps1) =>
      if !allowed then (.ok [String.intercalate "." ctx.path], t, ps1)
      else if meta.decorators.any isRelationDec then (.ok [], t, ps1)
      else
        match meta.typ with
        | .arr ty =>
          let r := checkElems { meta with typ := ty } (jsElems value) 0 ctx env ps1
          (r.1, t ++ r.2.1, r.2.2)
        | .cls c =>
          let props := (classDef env c).properties
          let r := checkParameters props (props.map (fun p => getField value p.name))
                     { ctx with parent := c, parentValue := value } env ps1
          (r.1, t ++ r.2.1, r.2.2)
        | .prim => (.ok [], t, ps1)
termination_by (2 * jsDepth value + 1, 0)
decreasing_by
  · have := jsDepth_elems_le value (by simpa using hv)
    apply Prod.Lex.left; omega
  · have := jsDepthList_map_getField value (classDef env c).properties (by simpa using hv)
    apply Prod.Lex.left; omega

/-- The element loop of `checkParameter` for array-typed values: each
element is checked with the element descriptor and an index-qualified
path. -/
def checkElems (meta : PropM) (es : List JsVal) (i : Nat) (ctx : PCtx)
    (env : ClassEnv) (ps : PState) :
    Except Err (List String) × List String × PState :=
  match es with
  | [] => (.ok [], [], ps)
  | e :: rest =>
    match checkParameter meta e { ctx with path := ctx.path ++ [Nat.repr i] } env ps with
    | (.error err, t, ps1) => (.error err, t, ps1)
    | (.ok l1, t, ps1) =>
      match checkElems meta rest (i + 1) ctx env ps1 with
      | (.error err, t2, ps2) => (.error err, t ++ t2, ps2)
      | (.ok l2, t2, ps2) => (.ok (l1 ++ l2), t ++ t2, ps2)
termination_by (2 * (1 + jsDepthList es), es.length)
decreasing_by
  · have := jsDepth_le_list (v :: vs) v (List.mem_cons_self v vs)
    apply Prod.Lex.left; omega
  · have h1 := jsDepthList_tail_le v vs
    rcases Nat.lt_or_ge (jsDepthList vs) (jsDepthList (v :: vs)) with h | h
    · apply Prod.Lex.left; omega
    · have heq : jsDepthList vs = jsDepthList (v :: vs) := le_antisymm h1 h
      rw [heq]; apply Prod.Lex.right; simp only [List.length_cons]; omega

/-- `checkParameters`: check a descriptor list against a value list,
name-qualifying the path of each entry and concatenating the collected
unauthorized paths. -/
def checkParameters (metas : List PropM) (values : List JsVal) (ctx : PCtx)
    (env : ClassEnv) (ps : PState) :
    Except Err (List String) × List String × PState :=
  match metas, values with
  | [], _ => (.ok [], [], ps)
  | m :: ms, [] =>
    match checkParameter m .undefined { ctx with path := ctx.path ++ [m.name] } env ps with
    | (.error err, t, ps1) => (.error err, t, ps1)
    | (.ok l1, t, ps1) =>
      match checkParameters ms [] ctx env ps1 with
      | (.error err, t2, ps2) => (.error err, t ++ t2, ps2)
      | (.ok l2, t2, ps2) => (.ok (l1 ++ l2), t ++ t2, ps2)
  | m :: ms, v :: vs =>
    match checkParameter m v { ctx with path := ctx.path ++ [m.name] } env ps with
    | (.error err, t, ps1) => (.error err, t, ps1)
    | (.ok l1, t, ps1) =>
      match checkParameters ms vs ctx env ps1 with
      | (.error err, t2, ps2) => (.error err, t ++ t2, ps2)
      | (.ok l2, t2, ps2) => (.ok (l1 ++ l2), t ++ t2, ps2)
termination_by (2 * (1 + jsDepthList values), metas.length)
decreasing_by
  · apply Prod.Lex.left; simp [jsDepth]; omega
  · apply Prod.Lex.right; simp only [List.length_cons]; omega
  · have := jsDepth_le_list (v :: vs) v (List.mem_cons_self v vs)
    apply Prod.Lex.left; omega
  · have h1 := jsDepthList_tail_le v vs
    rcases Nat.lt_or_ge (jsDepthList vs) (jsDepthList (v :: vs)) with h | h
    · apply Prod.Lex.left; omega
    · have heq : jsDepthList vs = jsDepthList (v :: vs) := le_antisymm h1 h
      rw [heq]; apply Prod.Lex.right; simp only [List.length_cons]; omega

end

/-- `checkUserAccessToParameters`: run the walk over the bound action
parameters and throw one error enumerating every unauthorized path. -/
def checkUserAccessToParameters (metas : List PropM) (values : List JsVal)
    (info : AuthCtx) (env : ClassEnv) (ps : PState) :
    Except Err Unit × List String × PState :=
  match checkParameters metas values ⟨[], info, info.controllerId, .undefined⟩ env ps with
  | (.error e, t, ps1) => (.error e, t, ps1)
  | (.ok paths, t, ps1) =>
    if paths.isEmpty then (.ok (), t, ps1)
    else
      (.error (throwAuthError info (some ("Unauthorized to populate parameter paths (" ++
        String.intercalate ", " paths ++ ")"))), t, ps1)

mutual

/-- Compiled response filter tree (`FilterNode`). -/
inductive FilterNode where
  | value : FilterNode
  | array : FilterNode → FilterNode
  | cls : List FProp → FilterNode

/-- One compiled property of a `Class` filter node: name, the metadata
descriptor installed as `current` during evaluation, the read
authorizer (`none` models the boolean `true` used when the property has
no read decorator), and the child node. -/
inductive FProp where
  | mk : String → MetaCur → Option (List String) → FilterNode → FProp

end

/-- Name of a compiled property. -/
def FProp.name : FProp → String
  | .mk n _ _ _ => n

/-- Metadata descriptor of a compiled property. -/
def FProp.meta : FProp → MetaCur
  | .mk _ m _ _ => m

/-- Read authorizer of a compiled property. -/
def FProp.authorizer : FProp → Option (List String)
  | .mk _ _ a _ => a

/-- Child filter node of a compiled property. -/
def FProp.ftype : FProp → FilterNode
  | .mk _ _ _ t => t

/-- `createPropertyNode`: concatenate the policy names of the
property's read-scoped decorators; an empty list compiles to the
always-allow authorizer (`true` in the source). -/
def createPropertyNodeAuthorizer (prop : PropM) : Option (List String) :=
  let policies := ((authDecs .read prop.decorators).map AuthDec.policies).flatten
  if policies.isEmpty then none else some policies

/-- Number of classes not yet on the ancestor chain; the termination
measure of `compileType`. -/
def unseenCount (env : ClassEnv) (parents : List ClassId) : Nat :=
  ((Finset.range env.length).filter (fun i => i ∉ parents)).card

lemma unseenCount_lt (env : ClassEnv) (parents : List ClassId) (c : ClassId)
    (hc : c < env.length) (hnp : c ∉ parents) :
    unseenCount env (parents ++ [c]) < unseenCount env parents := by
  apply Finset.card_lt_card
  have hsub : (Finset.range env.length).filter (fun i => i ∉ parents ++ [c]) ⊆
      (Finset.range env.length).filter (fun i => i ∉ parents) := by
    intro x hx
    simp only [Finset.mem_filter, List.mem_append] at hx ⊢
    exact ⟨hx.1, fun h => hx.2 (Or.inl h)⟩
  rw [Finset.ssubset_iff_of_subset hsub]
  refine ⟨c, ?_, ?_⟩
  · simp only [Finset.mem_filter, Finset.mem_range]
    exact ⟨hc, hnp⟩
  · simp only [Finset.mem_filter, List.mem_append, List.mem_singleton, not_and, not_not]
    intro _
    simp

mutual

/-- `compileType`: build the filter tree for a declared type, carrying
the chain of ancestor classes currently being compiled; a class already
on the chain compiles to an empty class node (cycle guard), and classes
unknown to the reflection environment have no members. -/
def compileType (env : ClassEnv) (typ : TType) (parents : List ClassId) : FilterNode :=
  match typ with
  | .prim => .value
  | .arr t => .array (compileType env t parents)
  | .cls c =>
    if hp : c ∈ parents then .cls []
    else
      match hm : env.get? c with
      | none => .cls []
      | some cd => .cls (compileProps env cd.properties c parents)
termination_by (unseenCount env parents, 0, sizeOf typ)
decreasing_by
  · apply Prod.Lex.right; apply Prod.Lex.right; simp_arith
  · have hlen : c < env.length := by
      rcases List.get?_eq_some.mp hm with ⟨h, _⟩
      exact h
    apply Prod.Lex.left
    exact unseenCount_lt env parents c hlen hp

/-- The property loop of `compileType` over a class's declared
properties. -/
def compileProps (env : ClassEnv) (props : List PropM) (c : ClassId)
    (parents : List ClassId) : List FProp :=
  match props with
  | [] => []
  | p :: rest =>
    FProp.mk p.name ⟨.property, p.name, some c⟩ (createPropertyNodeAuthorizer p)
        (compileType env p.typ (parents ++ [c])) ::
      compileProps env rest c parents
termination_by (unseenCount env (parents ++ [c]), 1, props.length)
decreasing_by
  · apply Prod.Lex.right; apply Prod.Lex.left; omega
  · apply Prod.Lex.right; apply Prod.Lex.right
    simp only [List.length_cons]; omega

end

/-- `getAuthorize`: a boolean authorizer is returned as-is; a policy
authorizer runs against the shared policy array. -/
def getAuthorize (authorizer : Option (List String)) (env : ClassEnv)
    (ctx : AuthCtx) (ps : PState) : Except Err Bool × List String × PState :=
  match authorizer with
  | none => (.ok true, [], ps)
  | some keys => PolicyAuthorizer.authorize ps keys env ctx

/-- JavaScript property assignment `result[name] = v`: replace an
existing key in place, else append. -/
def insertField (fields : List (String × JsVal)) (name : String) (v : JsVal) :
    List (String × JsVal) :=
  match fields with
  | [] => [(name, v)]
  | f :: rest => if f.1 == name then (name, v) :: rest else f :: insertField rest name v

mutual

/-- `filterType`: walk a raw value along its compiled filter node,
producing the filtered value (or `undefined` when nothing survives). -/
def filterType (raw : JsVal) (node : FilterNode) (ctx : AuthCtx) (env : ClassEnv)
    (transform : Option (MetaCur → JsVal → JsVal)) (ps : PState) :
    Except Err JsVal × List String × PState :=
  match node with
  | .value => (.ok raw, [], ps)
  | .array child =>
    match raw with
    | .arr items =>
      match filterElems items child ctx env transform ps with
      | (.error e, t, ps1) => (.error e, t, ps1)
      | (.ok vs, t, ps1) => (.ok (if vs.isEmpty then .undefined else .arr vs), t, ps1)
    | _ =>
      match ctorName raw with
      | some cn =>
        (.error (.plain ("Action " ++ className env ctx.controllerId ++ "." ++
          ctx.actionName ++ " expecting return value of type Array but got " ++ cn)),
         [], ps)
      | none =>
        (.error (.plain "TypeError: Cannot read properties of null or undefined"),
         [], ps)
  | .cls props =>
    match filterProps props raw [] ctx env transform ps with
    | (.error e, t, ps1) => (.error e, t, ps1)
    | (.ok fields, t, ps1) =>
      (.ok (if fields.isEmpty then .undefined else .obj fields), t, ps1)
termination_by (2 * sizeOf node + 1, 0)
decreasing_by
  · apply Prod.Lex.left; simp_arith
  · apply Prod.Lex.left; simp_arith

/-- The element loop of `filterType` for array nodes: elements that
filter to `undefined` are dropped. -/
def filterElems (items : List JsVal) (child : FilterNode) (ctx : AuthCtx)
    (env : ClassEnv) (transform : Option (MetaCur → JsVal → JsVal)) (ps : PState) :
    Except Err (List JsVal) × List String × PState :=
  match items with
  | [] => (.ok [], [], ps)
  | x :: rest =>
    match filterType x child ctx env transform ps with
    | (.error e, t, ps1) => (.error e, t, ps1)
    | (.ok v, t, ps1) =>
      match filterElems rest child ctx env transform ps1 with
      | (.error e, t2, ps2) => (.error e, t ++ t2, ps2)
      | (.ok vs, t2, ps2) =>
        (.ok (if isUndefined v then vs else v :: vs), t ++ t2, ps2)
termination_by (2 * (1 + sizeOf child), items.length)
decreasing_by
  · apply Prod.Lex.left; omega
  · apply Prod.Lex.right; simp only [List.length_cons]; omega

/-- The property loop of `filterType` for class nodes: absent raw
values are skipped without evaluating the authorizer; authorized values
are recursively filtered, transformed, and assigned unless
`undefined`. -/
def filterProps (props : List FProp) (raw : JsVal) (acc : List (String × JsVal))
    (ctx : AuthCtx) (env : ClassEnv) (transform : Option (MetaCur → JsVal → JsVal))
    (ps : PState) : Except Err (List (String × JsVal)) × List String × PState :=
  match props with
  | [] => (.ok acc, [], ps)
  | p :: rest =>
    let value := getField raw p.name
    if isAbsent value then filterProps rest raw acc ctx env transform ps
    else
      match getAuthorize p.authorizer env
          { ctx with value := value, parentValue := raw, current := some p.meta } ps with
      | (.error e, t, ps1) => (.error e, t, ps1)
      | (.ok false, t, ps1) =>
        match filterProps rest raw acc ctx env transform ps1 with
        | (.error e, t2, ps2) => (.error e, t ++ t2, ps2)
        | (.ok fields, t2, ps2) => (.ok fields, t ++ t2, ps2)
      | (.ok true, t, ps1) =>
        match filterType value p.ftype ctx env transform ps1 with
        | (.error e, t2, ps2) => (.error e, t ++ t2, ps2)
        | (.ok candidate, t2, ps2) =>
          let tv := (transform.getD (fun _ b => b)) p.meta candidate
          let acc2 := if isUndefined tv then acc else insertField acc p.name tv
          match filterProps rest raw acc2 ctx env transform ps2 with
          | (.error e, t3, ps3) => (.error e, (t ++ t2) ++ t3, ps3)
          | (.ok fields, t3, ps3) => (.ok fields, (t ++ t2) ++ t3, ps3)
termination_by (2 * sizeOf props, 0)
decreasing_by
  · apply Prod.Lex.left; simp_arith
  · apply Prod.Lex.left; simp_arith
  · apply Prod.Lex.left; rcases p with ⟨n, m, a, f⟩
    simp only [FProp.ftype]; simp_arith
  · apply Prod.Lex.left; simp_arith

end

/-- The filtered action result (`ActionResult`): HTTP status and body. -/
structure ActionResult where
  status : Nat
  body : JsVal

/-- `Array.isArray(raw.body) && raw.body.length === 0`. -/
def isEmptyArr : JsVal → Bool
  | .arr [] => true
  | _ => false

/-- `responseAuthorize`: when a response type is known, the status is
200 and the body truthy, compile the type and filter the body — except
that a top-level empty array is passed through as `[]` without
filtering.  `typ` is the declared response type if the action carries a
`plumier-meta:response-type` decorator, else its return type (`none`
covers the absent and `Promise` cases, which skip filtering). -/
def responseAuthorize (raw : ActionResult) (typ : Option TType) (info : AuthCtx)
    (env : ClassEnv) (transform : Option (MetaCur → JsVal → JsVal)) (ps : PState) :
    Except Err ActionResult × List String × PState :=
  match typ with
  | none => (.ok raw, [], ps)
  | some t =>
    if raw.status == 200 && jsTruthy raw.body then
      let node := compileType env t []
      if isEmptyArr raw.body then (.ok { raw with body := .arr [] }, [], ps)
      else
        match filterType raw.body node info env transform ps with
        | (.error e, tr, ps1) => (.error e, tr, ps1)
        | (.ok v, tr, ps1) => (.ok { raw with body := v }, tr, ps1)
    else (.ok raw, [], ps)

/-- Concrete reflection environment used by witnesses:
a controller, a simple entity, and a self-referential class. -/
def envW : ClassEnv :=
  [⟨"AnimalController", [], []⟩,
   ⟨"Animal", [], [⟨"name", .property, .prim, []⟩]⟩,
   ⟨"Node", [], [⟨"next", .property, .cls 2, []⟩]⟩]

/-- A policy that always denies. -/
def denyPolicy : AuthPolicy := .custom "deny" (fun _ => .ok false)

/-- A policy that always allows. -/
def allowPolicy : AuthPolicy := .custom "allow" (fun _ => .ok true)

/-- Concrete request context without an authenticated user. -/
def infoNone : AuthCtx :=
  ⟨none, .route, "POST", .undefined, .undefined, none, 0, "save", none, []⟩

/-- Concrete request context with an authenticated user. -/
def infoUser : AuthCtx :=
  ⟨some (.obj []), .route, "POST", .undefined, .undefined, none, 0, "save", none, []⟩

lemma compileType_cls_some (env : ClassEnv) (c : ClassId) (parents : List ClassId)
    (cd : ClassDef) (hp : c ∉ parents) (hm : env.get? c = some cd) :
    compileType env (.cls c) parents = .cls (compileProps env cd.properties c parents) := by
  rw [compileType]
  simp only [hp, dite_false]
  split
  · next h => rw [hm] at h; cases h
  · next cd2 h =>
    rw [hm] at h
    injection h with h2
    rw [h2]

/-- C6: `compileType` terminates on every type graph (it is a total
function of this development, defined by well-founded recursion on the
number of classes not yet on the ancestor chain), and when the
compiled class is already on the ancestor chain it returns a `Class`
node with an empty property list instead of recursing. -/
theorem c6_compile_type_cycle_guard (env : ClassEnv) (c : ClassId)
    (parents : List ClassId) (hc : c ∈ parents) :
    compileType env (.cls c) parents = .cls [] := by
  rw [compileType]
  simp [hc]

/-- Witness for C6: the self-referential class `Node` hits the cycle
guard, and compiling it from an empty chain terminates with the guarded
node in the cyclic branch. -/
theorem c6_compile_type_cycle_guard_witness :
    (2 : ClassId) ∈ ([2] : List ClassId) ∧
      compileType envW (.cls 2) [2] = .cls [] ∧
      compileType envW (.cls 2) [] =
        .cls [.mk "next" ⟨.property, "next", some 2⟩ none (.cls [])] := by
  have hguard : compileType envW (.cls 2) [2] = .cls [] :=
    c6_compile_type_cycle_guard envW 2 [2] (by decide)
  refine ⟨by decide, hguard, ?_⟩
  rw [compileType_cls_some envW 2 []
    ⟨"Node", [], [⟨"next", .property, .cls 2, []⟩]⟩ (by decide) rfl]
  simp [compileProps, createPropertyNodeAuthorizer, authDecs, hguard]

/-- C8: the conflict relation — two entity policies conflict exactly
when they share name and entity; an entity policy conflicts with a
same-named custom policy (in either order); two custom policies
conflict exactly when they share a name. -/
theorem c8_conflict_relation (n1 n2 : String) (e1 e2 : ClassId)
    (f1 f2 : AuthCtx → JsVal → Except Thrown Bool)
    (g1 g2 : AuthCtx → Except Thrown Bool) :
    (AuthPolicy.conflict (.entity n1 e1 f1) (.entity n2 e2 f2) = true ↔
      (n1 = n2 ∧ e1 = e2)) ∧
    (AuthPolicy.conflict (.entity n1 e1 f1) (.custom n2 g2) = true ↔ n1 = n2) ∧
    (AuthPolicy.conflict (.custom n1 g1) (.entity n2 e2 f2) = true ↔ n1 = n2) ∧
    (AuthPolicy.conflict (.custom n1 g1) (.custom n2 g2) = true ↔ n1 = n2) := by
  refine ⟨?_, ?_, ?_, ?_⟩ <;> simp [AuthPolicy.conflict, AuthPolicy.name]

/-- C10: each call to `PolicyAuthorizer.authorize` reverses the shared
policy array in place; the first call therefore evaluates the reversed
registration list, and a second call through `executeAuthorizer` on the
same configuration evaluates the policies in the original registration
order and flips the array back. -/
theorem c10_authorize_reverses_policy_array (ps : PState) (decs1 : List AuthDec)
    (keys1 keys2 : List String) (env : ClassEnv) (ctx1 ctx2 : AuthCtx) :
    (executeAuthorizer decs1 env ctx1 ps).2.2 = ps.reverse ∧
    PolicyAuthorizer.authorize ps keys1 env ctx1 =
      ((runPolicies ps.reverse keys1 env ctx1).1,
       (runPolicies ps.reverse keys1 env ctx1).2, ps.reverse) ∧
    PolicyAuthorizer.authorize ((executeAuthorizer decs1 env ctx1 ps).2.2)
        keys2 env ctx2 =
      ((runPolicies ps keys2 env ctx2).1,
       (runPolicies ps keys2 env ctx2).2, ps) := by
  refine ⟨rfl, rfl, ?_⟩
  simp [executeAuthorizer, PolicyAuthorizer.authorize]

/-- C9: a throwing evaluator is rethrown wrapped as
`Error occur inside authorization policy <name> on <location>` for
custom policies and
`... policy <name> for entity <entityName> on <location>` for entity
policies, followed by the original error's stack (a non-Error throwable
is embedded stringified); `<location>` is `class <ClassName>` when
anchored at a class and `<kind> <ParentName>.<memberName>` otherwise. -/
theorem c9_policy_error_wrapping :
    (∀ (n : String) (ev : AuthCtx → Except Thrown Bool) (env : ClassEnv)
       (ctx : AuthCtx) (stack : String), ev ctx = .error (.err stack) →
      policyAuthorize (.custom n ev) env ctx =
        .error (.plain ("Error occur inside authorization policy " ++ n ++
          " on " ++ getErrorLocation env ctx ++ " \n " ++ stack))) ∧
    (∀ (n : String) (ev : AuthCtx → Except Thrown Bool) (env : ClassEnv)
       (ctx : AuthCtx) (s : String), ev ctx = .error (.nonErr s) →
      policyAuthorize (.custom n ev) env ctx =
        .error (.plain ("Error occur inside authorization policy " ++ n ++
          " on " ++ getErrorLocation env ctx ++ " \n " ++ s))) ∧
    (∀ (n : String) (e : ClassId) (ev : AuthCtx → JsVal → Except Thrown Bool)
       (env : ClassEnv) (ctx : AuthCtx) (ent : ClassId) (idv : JsVal)
       (stack : String),
      getEntity env ctx = .ok (ent, idv) → ev ctx idv = .error (.err stack) →
      policyAuthorize (.entity n e ev) env ctx =
        .error (.plain ("Error occur inside authorization policy " ++ n ++
          " for entity " ++ className env e ++ " on " ++
          getErrorLocation env ctx ++ " \n " ++ stack))) ∧
    (∀ (n : String) (e : ClassId) (ev : AuthCtx → JsVal → Except Thrown Bool)
       (env : ClassEnv) (ctx : AuthCtx) (ent : ClassId) (idv : JsVal)
       (s : String),
      getEntity env ctx = .ok (ent, idv) → ev ctx idv = .error (.nonErr s) →
      policyAuthorize (.entity n e ev) env ctx =
        .error (.plain ("Error occur inside authorization policy " ++ n ++
          " for entity " ++ className env e ++ " on " ++
          getErrorLocation env ctx ++ " \n " ++ s))) ∧
    (∀ (env : ClassEnv) (ctx : AuthCtx) (nm : String) (pr : Option ClassId),
      ctx.current = some ⟨.klass, nm, pr⟩ →
      getErrorLocation env ctx = "class " ++ nm) ∧
    (∀ (env : ClassEnv) (ctx : AuthCtx) (k : MKind) (nm : String) (p : ClassId),
      ctx.current = some ⟨k, nm, some p⟩ → k ≠ .klass →
      getErrorLocation env ctx = MKind.lower k ++ " " ++ className env p ++ "." ++ nm) := by
  refine ⟨?_, ?_, ?_, ?_, ?_, ?_⟩
  · intro n ev env ctx stack h
    simp [policyAuthorize, h, thrownMessage]
  · intro n ev env ctx s h
    simp [policyAuthorize, h, thrownMessage]
  · intro n e ev env ctx ent idv stack hg h
    simp [policyAuthorize, hg, h, thrownMessage]
  · intro n e ev env ctx ent idv s hg h
    simp [policyAuthorize, hg, h, thrownMessage]
  · intro env ctx nm pr h
    simp [getErrorLocation, h]
  · intro env ctx k nm p h hk
    simp [getErrorLocation, h, hk]

/-- Concrete context anchored at the controller class. -/
def infoKlass : AuthCtx :=
  { infoUser with current := some ⟨.klass, "AnimalController", none⟩ }

/-- Concrete route context carrying an entity-policy provider. -/
def infoEnt : AuthCtx :=
  { infoUser with
    current := some ⟨.method, "save", some 0⟩
    entityProvider := some (1, "id")
    actionParams := [("id", .num 7)] }

/-- Witness for C9: a throwing custom policy and a throwing entity
policy produce exactly the specified wrapper messages. -/
theorem c9_policy_error_wrapping_witness :
    policyAuthorize (.custom "p1" (fun _ => .error (.err "boom"))) envW infoKlass =
      .error (.plain "Error occur inside authorization policy p1 on class AnimalController \n boom") ∧
    policyAuthorize (.entity "p2" 1 (fun _ _ => .error (.nonErr "oops"))) envW infoEnt =
      .error (.plain "Error occur inside authorization policy p2 for entity Animal on method AnimalController.save \n oops") := by
  obtain ⟨h1, h2, h3, h4, h5, h6⟩ := c9_policy_error_wrapping
  constructor
  · rw [h1 "p1" _ envW infoKlass "boom" rfl]
    rw [h5 envW infoKlass "AnimalController" none rfl]
    rfl
  · rw [h4 "p2" 1 _ envW infoEnt 1 (.num 7) "oops" rfl rfl]
    rw [h6 envW infoEnt .method "save" 0 rfl (by decide)]
    rfl

/-- Evaluator invocations performed while one policy is tried against a
requested-name list: one invocation per matching name until the first
`true` (pure evaluators assumed, described by `eqb`/`auth`). -/
def runKeysTrace (p : AuthPolicy) (keys : List String)
    (eqb : AuthPolicy → String → Bool) (auth : AuthPolicy → Bool) : List String :=
  if auth p then (if (keys.filter (eqb p)).isEmpty then [] else [p.name])
  else (keys.filter (eqb p)).map (fun _ => p.name)

/-- Reference evaluation trace following the spec's aggregation rule:
walk the candidate policies in the given order (the reverse registration
order once reversed by the caller), invoke only matching policies, and
short-circuit on the first policy whose evaluator returns `true`. -/
def traceSpec (keys : List String) (eqb : AuthPolicy → String → Bool)
    (auth : AuthPolicy → Bool) : List AuthPolicy → List String
  | [] => []
  | p :: rest =>
    if keys.any (eqb p) && auth p then runKeysTrace p keys eqb auth
    else runKeysTrace p keys eqb auth ++ traceSpec keys eqb auth rest

lemma runKeys_char (p : AuthPolicy) (keys : List String) (env : ClassEnv)
    (ctx : AuthCtx) (eqb : AuthPolicy → String → Bool) (auth : AuthPolicy → Bool)
    (heq : ∀ k ∈ keys, policyEquals p k env ctx = .ok (eqb p k))
    (hau : policyAuthorize p env ctx = .ok (auth p)) :
    runKeys p keys env ctx =
      (.ok (keys.any (eqb p) && auth p), runKeysTrace p keys eqb auth) := by
  induction keys with
  | nil => simp [runKeys, runKeysTrace]
  | cons k ks ih =>
    have hk := heq k (List.mem_cons_self k ks)
    have hih := ih (fun k2 hk2 => heq k2 (List.mem_cons_of_mem k hk2))
    rw [runKeys, hk]
    cases hq : eqb p k with
    | false => simp [hih, runKeysTrace, hq, List.filter_cons, List.any_cons]
    | true =>
      rw [hau]
      cases ha : auth p with
      | true => simp [runKeysTrace, hq, ha, List.filter_cons, List.any_cons]
      | false =>
        simp [hih, runKeysTrace, hq, ha, List.filter_cons, List.any_cons]

lemma runPolicies_char (l : List AuthPolicy) (keys : List String) (env : ClassEnv)
    (ctx : AuthCtx) (eqb : AuthPolicy → String → Bool) (auth : AuthPolicy → Bool)
    (heq : ∀ p ∈ l, ∀ k ∈ keys, policyEquals p k env ctx = .ok (eqb p k))
    (hau : ∀ p ∈ l, policyAuthorize p env ctx = .ok (auth p)) :
    runPolicies l keys env ctx =
      (.ok (l.any (fun p => keys.any (eqb p) && auth p)),
       traceSpec keys eqb auth l) := by
  induction l with
  | nil => simp [runPolicies, traceSpec]
  | cons p rest ih =>
    have hk := runKeys_char p keys env ctx eqb auth
      (heq p (List.mem_cons_self p rest)) (hau p (List.mem_cons_self p rest))
    have hih := ih (fun q hq => heq q (List.mem_cons_of_mem p hq))
      (fun q hq => hau q (List.mem_cons_of_mem p hq))
    rw [runPolicies, hk]
    cases hb : keys.any (eqb p) && auth p with
    | true => simp [traceSpec, hb, List.any_cons]
    | false => simp [hih, traceSpec, hb, List.any_cons]

lemma any_reverse_eq (l : List AuthPolicy) (f : AuthPolicy → Bool) :
    l.reverse.any f = l.any f := by
  induction l with
  | nil => rfl
  | cons a t ih =>
    simp [List.any_append, List.any_cons, ih, Bool.or_comm]

/-- C3: given pure (non-throwing) evaluators described by `eqb` (name
and entity match) and `auth` (evaluator verdict), one call of
`PolicyAuthorizer.authorize` evaluates the candidate policies of the
array it holds in reverse order, invokes only matching policies,
short-circuits on the first `true` (the trace equals the reference
trace over the reversed list), raises no error for requested names
matching no policy, and returns `true` exactly when some matching
policy's evaluator returns `true`. -/
theorem c3_policy_authorizer_reverse_order (ps : PState) (keys : List String)
    (env : ClassEnv) (ctx : AuthCtx) (eqb : AuthPolicy → String → Bool)
    (auth : AuthPolicy → Bool)
    (heq : ∀ p ∈ ps, ∀ k ∈ keys, policyEquals p k env ctx = .ok (eqb p k))
    (hau : ∀ p ∈ ps, policyAuthorize p env ctx = .ok (auth p)) :
    PolicyAuthorizer.authorize ps keys env ctx =
      (.ok (ps.any (fun p => keys.any (eqb p) && auth p)),
       traceSpec keys eqb auth ps.reverse,
       ps.reverse) := by
  have hchar := runPolicies_char ps.reverse keys env ctx eqb auth
    (fun p hp => heq p (List.mem_reverse.mp hp))
    (fun p hp => hau p (List.mem_reverse.mp hp))
  show (_, _, _) = _
  rw [hchar, any_reverse_eq]

/-- Witness for C3: with a denying policy registered before an allowing
one, the allowing policy (last registered) is evaluated first and
short-circuits; the unmatched requested name `nomatch` contributes
nothing and raises no error. -/
theorem c3_policy_authorizer_reverse_order_witness :
    PolicyAuthorizer.authorize [denyPolicy, allowPolicy] ["allow", "nomatch"]
        envW infoUser =
      (.ok true, ["allow"], [allowPolicy, denyPolicy]) := by
  rw [c3_policy_authorizer_reverse_order [denyPolicy, allowPolicy]
      ["allow", "nomatch"] envW infoUser
      (fun p k => k == p.name) (fun p => p.name == "allow")
      (by
        intro p hp k hk
        simp only [List.mem_cons, List.not_mem_nil, or_false] at hp hk
        rcases hp with rfl | rfl <;> rcases hk with rfl | rfl <;> rfl)
      (by
        intro p hp
        simp only [List.mem_cons, List.not_mem_nil, or_false] at hp
        rcases hp with rfl | rfl <;> rfl)]
  rfl

lemma checkParameter_absent (meta : PropM) (value : JsVal) (ctx : PCtx)
    (env : ClassEnv) (ps : PState) (hv : isAbsent value = true) :
    checkParameter meta value ctx env ps = (.ok [], [], ps) := by
  rw [checkParameter]
  simp [hv]

lemma checkParameter_denied (meta : PropM) (value : JsVal) (ctx : PCtx)
    (env : ClassEnv) (ps : PState) (tr : List String) (ps1 : PState)
    (hv : isAbsent value = false) (hm : (ctx.info.method == "GET") = false)
    (hd : (authDecs .write meta.decorators).isEmpty = false)
    (he : executeAuthorizer (authDecs .write meta.decorators) env
        (createContext ctx value meta) ps = (.ok false, tr, ps1)) :
    checkParameter meta value ctx env ps =
      (.ok [String.intercalate "." ctx.path], tr, ps1) := by
  rw [checkParameter]
  simp [hv, hm, hd, he]

lemma checkParameters_nil (values : List JsVal) (ctx : PCtx) (env : ClassEnv)
    (ps : PState) : checkParameters [] values ctx env ps = (.ok [], [], ps) := by
  rw [checkParameters]

lemma checkParameters_cons (m : PropM) (ms : List PropM) (v : JsVal)
    (vs : List JsVal) (ctx : PCtx) (env : ClassEnv) (ps : PState)
    (l1 l2 : List String) (t1 t2 : List String) (ps1 ps2 : PState)
    (h1 : checkParameter m v { ctx with path := ctx.path ++ [m.name] } env ps =
      (.ok l1, t1, ps1))
    (h2 : checkParameters ms vs ctx env ps1 = (.ok l2, t2, ps2)) :
    checkParameters (m :: ms) (v :: vs) ctx env ps =
      (.ok (l1 ++ l2), t1 ++ t2, ps2) := by
  rw [checkParameters]
  simp [h1, h2]

lemma checkElems_cons (meta : PropM) (e : JsVal) (es : List JsVal) (i : Nat)
    (ctx : PCtx) (env : ClassEnv) (ps : PState) (l1 l2 t1 t2 : List String)
    (ps1 ps2 : PState)
    (h1 : checkParameter meta e { ctx with path := ctx.path ++ [Nat.repr i] } env ps =
      (.ok l1, t1, ps1))
    (h2 : checkElems meta es (i + 1) ctx env ps1 = (.ok l2, t2, ps2)) :
    checkElems meta (e :: es) i ctx env ps = (.ok (l1 ++ l2), t1 ++ t2, ps2) := by
  rw [checkElems]
  simp [h1, h2]

lemma checkUserAccessToParameters_char (metas : List PropM) (values : List JsVal)
    (info : AuthCtx) (env : ClassEnv) (ps : PState) (paths t : List String)
    (ps1 : PState)
    (hw : checkParameters metas values ⟨[], info, info.controllerId, .undefined⟩ env ps =
      (.ok paths, t, ps1)) :
    checkUserAccessToParameters metas values info env ps =
      (if paths.isEmpty then (.ok (), t, ps1)
       else (.error (throwAuthError info
         (some ("Unauthorized to populate parameter paths (" ++
           String.intercalate ", " paths ++ ")"))), t, ps1)) := by
  rw [checkUserAccessToParameters]
  simp only [hw]

lemma checkUserAccessToRoute_denied (decs : List AuthDec) (env : ClassEnv)
    (info : AuthCtx) (ps : PState) (conds : List Bool) (t : List String)
    (ps1 : PState)
    (hr : routeConds decs env info ps = (.ok conds, t, ps1))
    (hc : conds.any (fun x => x) = false) :
    checkUserAccessToRoute decs env info ps =
      (.error (throwAuthError info none), t, ps1) := by
  rw [checkUserAccessToRoute]
  simp [hr, hc]

/-- C1: every denial site throws an `HttpStatusError` whose status is
403 (`Forbidden`) when the context has no authenticated user and 401
(`Unauthorized`) when a user is present — for `throwAuthError` itself,
for the route check when no decorator authorizes, and for the parameter
check when the walk collects unauthorized paths. -/
theorem c1_denial_status_codes :
    (∀ (info : AuthCtx) (msg : Option String), info.user = none →
      throwAuthError info msg = .http 403 (msg.getD "Forbidden")) ∧
    (∀ (info : AuthCtx) (msg : Option String) (u : JsVal), info.user = some u →
      throwAuthError info msg = .http 401 (msg.getD "Unauthorized")) ∧
    (∀ (decs : List AuthDec) (env : ClassEnv) (info : AuthCtx) (ps : PState)
       (conds : List Bool) (t : List String) (ps1 : PState),
      routeConds decs env info ps = (.ok conds, t, ps1) →
      conds.any (fun x => x) = false →
      checkUserAccessToRoute decs env info ps =
        (.error (.http (if info.user.isNone then 403 else 401)
          (if info.user.isNone then "Forbidden" else "Unauthorized")), t, ps1)) ∧
    (∀ (metas : List PropM) (values : List JsVal) (info : AuthCtx)
       (env : ClassEnv) (ps : PState) (paths t : List String) (ps1 : PState),
      checkParameters metas values ⟨[], info, info.controllerId, .undefined⟩ env ps =
        (.ok paths, t, ps1) →
      paths ≠ [] →
      checkUserAccessToParameters metas values info env ps =
        (.error (.http (if info.user.isNone then 403 else 401)
          ("Unauthorized to populate parameter paths (" ++
            String.intercalate ", " paths ++ ")")), t, ps1)) := by
  refine ⟨?_, ?_, ?_, ?_⟩
  · intro info msg hu
    simp [throwAuthError, hu, HttpStatus.Forbidden]
  · intro info msg u hu
    simp [throwAuthError, hu, HttpStatus.Unauthorized]
  · intro decs env info ps conds t ps1 hr hc
    rw [checkUserAccessToRoute_denied decs env info ps conds t ps1 hr hc]
    cases hu : info.user <;>
      simp [throwAuthError, hu, HttpStatus.Forbidden, HttpStatus.Unauthorized]
  · intro metas values info env ps paths t ps1 hw hne
    rw [checkUserAccessToParameters_char metas values info env ps paths t ps1 hw]
    have : paths.isEmpty = false := by
      cases paths with
      | nil => exact absurd rfl hne
      | cons a l => rfl
    cases hu : info.user <;>
      simp [this, throwAuthError, hu, HttpStatus.Forbidden, HttpStatus.Unauthorized]

/-- Route decorator used by witnesses. -/
def rdecW : AuthDec := ⟨["deny"], .route, .methodLoc, "deny"⟩

/-- Write decorator used by witnesses. -/
def wdecW : AuthDec := ⟨["deny"], .write, .paramLoc, "deny"⟩

/-- Parameter descriptor used by witnesses. -/
def pmetaW : PropM := ⟨"data", .parameter, .prim, [.auth wdecW]⟩

/-- Witness for C1: a denied route without identity throws 403
`Forbidden`, a denied parameter walk with identity throws 401 with the
path-enumerating message. -/
theorem c1_denial_status_codes_witness :
    throwAuthError infoNone none = .http 403 "Forbidden" ∧
    throwAuthError infoUser none = .http 401 "Unauthorized" ∧
    checkUserAccessToRoute [rdecW] envW infoNone [denyPolicy] =
      (.error (.http 403 "Forbidden"), ["deny"], [denyPolicy]) ∧
    checkUserAccessToParameters [pmetaW] [.num 1] infoUser envW [denyPolicy] =
      (.error (.http 401 "Unauthorized to populate parameter paths (data)"),
       ["deny"], [denyPolicy]) := by
  obtain ⟨h1, h2, h3, h4⟩ := c1_denial_status_codes
  have hwalk : checkParameters [pmetaW] [.num 1]
      ⟨[], infoUser, infoUser.controllerId, .undefined⟩ envW [denyPolicy] =
      (.ok ["data"], ["deny"], [denyPolicy]) := by
    have hp1 : checkParameter pmetaW (.num 1) ⟨["data"], infoUser, 0, .undefined⟩
        envW [denyPolicy] = (.ok ["data"], ["deny"], [denyPolicy]) := by
      rw [checkParameter_denied pmetaW (.num 1) ⟨["data"], infoUser, 0, .undefined⟩
        envW [denyPolicy] ["deny"] [denyPolicy] rfl rfl rfl rfl]
      rfl
    exact checkParameters_cons pmetaW [] (.num 1) []
      ⟨[], infoUser, infoUser.controllerId, .undefined⟩ envW [denyPolicy]
      ["data"] [] ["deny"] [] [denyPolicy] [denyPolicy] hp1
      (checkParameters_nil [] _ envW [denyPolicy])
  refine ⟨h1 infoNone none rfl, h2 infoUser none (.obj []) rfl, ?_, ?_⟩
  · have := h3 [rdecW] envW infoNone [denyPolicy] [false] ["deny"] [denyPolicy]
      rfl rfl
    simpa [infoNone] using this
  · have := h4 [pmetaW] [.num 1] infoUser envW [denyPolicy] ["data"] ["deny"]
      [denyPolicy] hwalk (by simp)
    simpa [infoUser] using this

/-- C2 (amended): route-access decorator selection uses exactly the
action's route-scoped decorators when non-empty, else the controller's,
else one decorator synthesized from the configured global default, else
none — levels are never merged; and with no decorator at all every
request is denied: 403 `Forbidden` without identity, 401 `Unauthorized`
with identity. -/
theorem c2_route_decorator_selection :
    (∀ (env : ClassEnv) (route : RouteInfo) (g : Option (List String)),
      authDecs .route route.action.decorators ≠ [] →
      getRouteAuthorizeDecorators env route g =
        authDecs .route route.action.decorators) ∧
    (∀ (env : ClassEnv) (route : RouteInfo) (g : Option (List String)),
      authDecs .route route.action.decorators = [] →
      authDecs .route (classDef env route.controllerId).decorators ≠ [] →
      getRouteAuthorizeDecorators env route g =
        authDecs .route (classDef env route.controllerId).decorators) ∧
    (∀ (env : ClassEnv) (route : RouteInfo) (gs : List String),
      authDecs .route route.action.decorators = [] →
      authDecs .route (classDef env route.controllerId).decorators = [] →
      getRouteAuthorizeDecorators env route (some gs) = getGlobalDecorators gs) ∧
    (∀ (env : ClassEnv) (route : RouteInfo),
      authDecs .route route.action.decorators = [] →
      authDecs .route (classDef env route.controllerId).decorators = [] →
      getRouteAuthorizeDecorators env route none = []) ∧
    (∀ (env : ClassEnv) (info : AuthCtx) (ps : PState), info.user = none →
      checkUserAccessToRoute [] env info ps =
        (.error (.http 403 "Forbidden"), [], ps)) ∧
    (∀ (env : ClassEnv) (info : AuthCtx) (ps : PState) (u : JsVal),
      info.user = some u →
      checkUserAccessToRoute [] env info ps =
        (.error (.http 401 "Unauthorized"), [], ps)) := by
  refine ⟨?_, ?_, ?_, ?_, ?_, ?_⟩
  · intro env route g ha
    simp [getRouteAuthorizeDecorators, List.isEmpty_iff, ha]
  · intro env route g ha hc
    simp [getRouteAuthorizeDecorators, List.isEmpty_iff, ha, hc]
  · intro env route gs ha hc
    simp [getRouteAuthorizeDecorators, List.isEmpty_iff, ha, hc]
  · intro env route ha hc
    simp [getRouteAuthorizeDecorators, List.isEmpty_iff, ha, hc]
  · intro env info ps hu
    rw [checkUserAccessToRoute]
    simp [routeConds, throwAuthError, hu, HttpStatus.Forbidden]
  · intro env info ps u hu
    rw [checkUserAccessToRoute]
    simp [routeConds, throwAuthError, hu, HttpStatus.Unauthorized]

/-- Counterexample for C2 as stated: with no authorize decorator at any
level and no global default, the selection yields no decorators, and a
request **with** an identity is denied with 401 rather than succeeding
(the claim's "implicit authenticated-only: any identity succeeds"
clause is false on the code). -/
theorem c2_route_decorator_selection_counterexample :
    getRouteAuthorizeDecorators envW ⟨0, ⟨"save", [], []⟩⟩ none = [] ∧
    infoUser.user = some (.obj []) ∧
    checkUserAccessToRoute [] envW infoUser [denyPolicy] =
      (.error (.http 401 "Unauthorized"), [], [denyPolicy]) := by
  refine ⟨rfl, rfl, rfl⟩

/-- Controller-decorated environment used by the C2 witness. -/
def envC : ClassEnv := [⟨"CtrlC", [.auth rdecW], []⟩]

/-- Witness for C2: each selection level and both denial outcomes at a
concrete input. -/
theorem c2_route_decorator_selection_witness :
    getRouteAuthorizeDecorators envW ⟨0, ⟨"save", [.auth rdecW], []⟩⟩ (some ["g"]) =
      [rdecW] ∧
    getRouteAuthorizeDecorators envC ⟨0, ⟨"save", [], []⟩⟩ (some ["g"]) = [rdecW] ∧
    getRouteAuthorizeDecorators envW ⟨0, ⟨"save", [], []⟩⟩ (some ["g"]) =
      getGlobalDecorators ["g"] ∧
    getRouteAuthorizeDecorators envW ⟨0, ⟨"save", [], []⟩⟩ none = [] ∧
    checkUserAccessToRoute [] envW infoNone [] =
      (.error (.http 403 "Forbidden"), [], []) ∧
    checkUserAccessToRoute [] envW infoUser [] =
      (.error (.http 401 "Unauthorized"), [], []) := by
  obtain ⟨h1, h2, h3, h4, h5, h6⟩ := c2_route_decorator_selection
  refine ⟨?_, ?_, ?_, ?_, ?_, ?_⟩
  · exact h1 envW ⟨0, ⟨"save", [.auth rdecW], []⟩⟩ (some ["g"]) (by decide)
  · exact h2 envC ⟨0, ⟨"save", [], []⟩⟩ (some ["g"]) rfl (by decide)
  · exact h3 envW ⟨0, ⟨"save", [], []⟩⟩ ["g"] rfl rfl
  · exact h4 envW ⟨0, ⟨"save", [], []⟩⟩ rfl rfl
  · exact h5 envW infoNone [] rfl
  · exact h6 envW infoUser [] (.obj []) rfl

/-- C4: absent candidate values never reach a policy evaluator — the
parameter walk returns immediately on `undefined`/`null` (no path
recorded, no evaluator invocation traced, no descent), and the
response-property loop skips a property whose raw value is absent
without invoking its read authorizer (and omits it from the output). -/
theorem c4_absent_values_never_reach_policies :
    (∀ (meta : PropM) (ctx : PCtx) (env : ClassEnv) (ps : PState),
      checkParameter meta .undefined ctx env ps = (.ok [], [], ps)) ∧
    (∀ (meta : PropM) (ctx : PCtx) (env : ClassEnv) (ps : PState),
      checkParameter meta .null ctx env ps = (.ok [], [], ps)) ∧
    (∀ (p : FProp) (rest : List FProp) (raw : JsVal)
       (acc : List (String × JsVal)) (ctx : AuthCtx) (env : ClassEnv)
       (transform : Option (MetaCur → JsVal → JsVal)) (ps : PState),
      isAbsent (getField raw p.name) = true →
      filterProps (p :: rest) raw acc ctx env transform ps =
        filterProps rest raw acc ctx env transform ps) := by
  refine ⟨?_, ?_, ?_⟩
  · intro meta ctx env ps
    exact checkParameter_absent meta .undefined ctx env ps rfl
  · intro meta ctx env ps
    exact checkParameter_absent meta .null ctx env ps rfl
  · intro p rest raw acc ctx env transform ps hab
    conv_lhs => rw [filterProps]
    simp [hab]

/-- Read-filter request context used by witnesses. -/
def infoRead : AuthCtx :=
  ⟨some (.obj []), .read, "GET", .undefined, .undefined, none, 0, "get", none, []⟩

/-- A read-guarded compiled property used by witnesses. -/
def fpropW : FProp := .mk "secret" ⟨.property, "secret", some 1⟩ (some ["deny"]) .value

/-- Witness for C4: an `undefined` and a `null` parameter value are
skipped, and a guarded property absent from the raw object is skipped
without evaluating its authorizer. -/
theorem c4_absent_values_never_reach_policies_witness :
    checkParameter pmetaW .undefined ⟨["data"], infoUser, 0, .undefined⟩ envW [denyPolicy] =
      (.ok [], [], [denyPolicy]) ∧
    checkParameter pmetaW .null ⟨["data"], infoUser, 0, .undefined⟩ envW [denyPolicy] =
      (.ok [], [], [denyPolicy]) ∧
    isAbsent (getField (.obj []) fpropW.name) = true ∧
    filterProps [fpropW] (.obj []) [] infoRead envW none [denyPolicy] =
      (.ok [], [], [denyPolicy]) := by
  obtain ⟨h1, h2, h3⟩ := c4_absent_values_never_reach_policies
  refine ⟨h1 pmetaW ⟨["data"], infoUser, 0, .undefined⟩ envW [denyPolicy],
    h2 pmetaW ⟨["data"], infoUser, 0, .undefined⟩ envW [denyPolicy], rfl, ?_⟩
  rw [h3 fpropW [] (.obj []) [] infoRead envW none [denyPolicy] rfl]
  rw [filterProps]

/-- C5: a write-denied value is recorded under exactly its dotted path
and the walk does not descend into it (the result carries only that
path and only the denying evaluation's trace); sibling parameters and
array elements are walked in declaration/index order with their results
concatenated (a denial does not suppress later siblings); and when the
finished walk has collected a non-empty path list, one error is thrown
whose message enumerates all paths comma-joined, with 403/401 chosen by
identity absence/presence. -/
theorem c5_unauthorized_path_collection :
    (∀ (meta : PropM) (value : JsVal) (ctx : PCtx) (env : ClassEnv) (ps : PState)
       (tr : List String) (ps1 : PState),
      isAbsent value = false → (ctx.info.method == "GET") = false →
      (authDecs .write meta.decorators).isEmpty = false →
      executeAuthorizer (authDecs .write meta.decorators) env
        (createContext ctx value meta) ps = (.ok false, tr, ps1) →
      checkParameter meta value ctx env ps =
        (.ok [String.intercalate "." ctx.path], tr, ps1)) ∧
    (∀ (m : PropM) (ms : List PropM) (v : JsVal) (vs : List JsVal) (ctx : PCtx)
       (env : ClassEnv) (ps : PState) (l1 l2 t1 t2 : List String) (ps1 ps2 : PState),
      checkParameter m v { ctx with path := ctx.path ++ [m.name] } env ps =
        (.ok l1, t1, ps1) →
      checkParameters ms vs ctx env ps1 = (.ok l2, t2, ps2) →
      checkParameters (m :: ms) (v :: vs) ctx env ps =
        (.ok (l1 ++ l2), t1 ++ t2, ps2)) ∧
    (∀ (meta : PropM) (e : JsVal) (es : List JsVal) (i : Nat) (ctx : PCtx)
       (env : ClassEnv) (ps : PState) (l1 l2 t1 t2 : List String) (ps1 ps2 : PState),
      checkParameter meta e { ctx with path := ctx.path ++ [Nat.repr i] } env ps =
        (.ok l1, t1, ps1) →
      checkElems meta es (i + 1) ctx env ps1 = (.ok l2, t2, ps2) →
      checkElems meta (e :: es) i ctx env ps = (.ok (l1 ++ l2), t1 ++ t2, ps2)) ∧
    (∀ (metas : List PropM) (values : List JsVal) (info : AuthCtx) (env : ClassEnv)
       (ps : PState) (paths t : List String) (ps1 : PState),
      checkParameters metas values ⟨[], info, info.controllerId, .undefined⟩ env ps =
        (.ok paths, t, ps1) →
      checkUserAccessToParameters metas values info env ps =
        (if paths.isEmpty then (.ok (), t, ps1)
         else (.error (throwAuthError info
           (some ("Unauthorized to populate parameter paths (" ++
             String.intercalate ", " paths ++ ")"))), t, ps1))) := by
  refine ⟨?_, ?_, ?_, ?_⟩
  · intro meta value ctx env ps tr ps1 hv hm hd he
    exact checkParameter_denied meta value ctx env ps tr ps1 hv hm hd he
  · intro m ms v vs ctx env ps l1 l2 t1 t2 ps1 ps2 h1 h2
    exact checkParameters_cons m ms v vs ctx env ps l1 l2 t1 t2 ps1 ps2 h1 h2
  · intro meta e es i ctx env ps l1 l2 t1 t2 ps1 ps2 h1 h2
    exact checkElems_cons meta e es i ctx env ps l1 l2 t1 t2 ps1 ps2 h1 h2
  · intro metas values info env ps paths t ps1 hw
    exact checkUserAccessToParameters_char metas values info env ps paths t ps1 hw

/-- Undecorated sibling parameter used by the C5 witness. -/
def pmeta2 : PropM := ⟨"extra", .parameter, .prim, []⟩

/-- Witness for C5: a denied parameter records `data` and only the
denying trace; its authorized sibling still contributes; a denied array
element records the indexed path `data.0`; and the finished walk throws
401 with the comma-joined message. -/
theorem c5_unauthorized_path_collection_witness :
    checkParameter pmetaW (.num 1) ⟨["data"], infoUser, 0, .undefined⟩ envW [denyPolicy] =
      (.ok ["data"], ["deny"], [denyPolicy]) ∧
    checkParameters [pmetaW, pmeta2] [.num 1, .num 2]
        ⟨[], infoUser, infoUser.controllerId, .undefined⟩ envW [denyPolicy] =
      (.ok ["data"], ["deny"], [denyPolicy]) ∧
    checkElems pmetaW [.num 5] 0 ⟨["data"], infoUser, 0, .undefined⟩ envW [denyPolicy] =
      (.ok ["data.0"], ["deny"], [denyPolicy]) ∧
    checkUserAccessToParameters [pmetaW, pmeta2] [.num 1, .num 2] infoUser envW
        [denyPolicy] =
      (.error (.http 401 "Unauthorized to populate parameter paths (data)"),
       ["deny"], [denyPolicy]) := by
  obtain ⟨h1, h2, h3, h4⟩ := c5_unauthorized_path_collection
  have hp1 : checkParameter pmetaW (.num 1) ⟨["data"], infoUser, 0, .undefined⟩
      envW [denyPolicy] = (.ok ["data"], ["deny"], [denyPolicy]) := by
    have := h1 pmetaW (.num 1) ⟨["data"], infoUser, 0, .undefined⟩ envW [denyPolicy]
      ["deny"] [denyPolicy] rfl rfl rfl rfl
    simpa using this
  have hok2 : checkParameter pmeta2 (.num 2) ⟨["extra"], infoUser, 0, .undefined⟩
      envW [denyPolicy] = (.ok [], [], [denyPolicy]) := by
    rw [checkParameter]
    rfl
  have hcps2 : checkParameters [pmeta2] [.num 2]
      ⟨[], infoUser, infoUser.controllerId, .undefined⟩ envW [denyPolicy] =
      (.ok [], [], [denyPolicy]) :=
    checkParameters_cons pmeta2 [] (.num 2) [] _ envW [denyPolicy]
      [] [] [] [] [denyPolicy] [denyPolicy] hok2
      (checkParameters_nil [] _ envW [denyPolicy])
  have hwalk : checkParameters [pmetaW, pmeta2] [.num 1, .num 2]
      ⟨[], infoUser, infoUser.controllerId, .undefined⟩ envW [denyPolicy] =
      (.ok ["data"], ["deny"], [denyPolicy]) := by
    have := h2 pmetaW [pmeta2] (.num 1) [.num 2]
      ⟨[], infoUser, infoUser.controllerId, .undefined⟩ envW [denyPolicy]
      ["data"] [] ["deny"] [] [denyPolicy] [denyPolicy] hp1 hcps2
    simpa using this
  have hp0 : checkParameter pmetaW (.num 5) ⟨["data", "0"], infoUser, 0, .undefined⟩
      envW [denyPolicy] = (.ok ["data.0"], ["deny"], [denyPolicy]) := by
    have := h1 pmetaW (.num 5) ⟨["data", "0"], infoUser, 0, .undefined⟩ envW
      [denyPolicy] ["deny"] [denyPolicy] rfl rfl rfl rfl
    simpa using this
  have hel0 : checkElems pmetaW [] 1 ⟨["data"], infoUser, 0, .undefined⟩ envW
      [denyPolicy] = (.ok [], [], [denyPolicy]) := by
    rw [checkElems]
  refine ⟨hp1, hwalk, ?_, ?_⟩
  · have := h3 pmetaW (.num 5) [] 0 ⟨["data"], infoUser, 0, .undefined⟩ envW
      [denyPolicy] ["data.0"] [] ["deny"] [] [denyPolicy] [denyPolicy] hp0 hel0
    simpa using this
  · have := h4 [pmetaW, pmeta2] [.num 1, .num 2] infoUser envW [denyPolicy]
      ["data"] ["deny"] [denyPolicy] hwalk
    simpa [throwAuthError, infoUser, HttpStatus.Unauthorized] using this

lemma compileAnimalNode :
    compileType envW (.cls 1) [] =
      .cls [.mk "name" ⟨.property, "name", some 1⟩ none .value] := by
  rw [compileType_cls_some envW 1 [] ⟨"Animal", [], [⟨"name", .property, .prim, []⟩]⟩
    (by decide) rfl]
  rw [compileProps]
  rw [compileProps]
  rw [compileType]
  rfl

lemma filterEmptyAnimal :
    filterType (.obj []) (.cls [.mk "name" ⟨.property, "name", some 1⟩ none .value])
        infoRead envW none [] = (.ok .undefined, [], []) := by
  rw [filterType]
  rw [filterProps]
  rw [filterProps]
  rfl

/-- Counterexample for C7 as stated: at an `Array` node an empty source
array filters to `undefined`, not `[]` (so a nested empty array is
dropped by its parent), and a top-level object response whose filtered
result has zero surviving keys is not "returned as-is": the body
collapses to `undefined`. -/
theorem c7_response_filter_counterexample :
    filterType (.arr []) (.array .value) infoRead envW none [] =
      (.ok .undefined, [], []) ∧
    JsVal.undefined ≠ JsVal.arr [] ∧
    responseAuthorize ⟨200, .obj []⟩ (some (.cls 1)) infoRead envW none [] =
      (.ok ⟨200, .undefined⟩, [], []) ∧
    JsVal.undefined ≠ JsVal.obj [] := by
  refine ⟨?_, ?_, ?_, ?_⟩
  · rw [filterType]
    rw [filterElems]
    rfl
  · intro h
    cases h
  · rw [responseAuthorize]
    simp only [compileAnimalNode]
    rw [filterEmptyAnimal]
    rfl
  · intro h
    cases h

/-- C7 (amended): at an `Array` node a non-array raw value throws an
error naming the controller, action and the actual runtime type;
elements that filter to `undefined` are dropped; an empty (or
fully-dropped) source array filters to `undefined`, so a nested empty
array is dropped by its parent; a class node whose filtered result has
zero surviving keys collapses to `undefined` — including the top-level
response body; only a top-level response that is literally an empty
array is special-cased to `[]` without walking or invoking any
policy. -/
theorem c7_response_filter_walk :
    (∀ (raw : JsVal) (child : FilterNode) (ctx : AuthCtx) (env : ClassEnv)
       (transform : Option (MetaCur → JsVal → JsVal)) (ps : PState) (cn : String),
      (∀ es, raw ≠ .arr es) → ctorName raw = some cn →
      filterType raw (.array child) ctx env transform ps =
        (.error (.plain ("Action " ++ className env ctx.controllerId ++ "." ++
          ctx.actionName ++ " expecting return value of type Array but got " ++ cn)),
         [], ps)) ∧
    (∀ (child : FilterNode) (ctx : AuthCtx) (env : ClassEnv)
       (transform : Option (MetaCur → JsVal → JsVal)) (ps : PState),
      filterType (.arr []) (.array child) ctx env transform ps =
        (.ok .undefined, [], ps)) ∧
    (∀ (x : JsVal) (xs : List JsVal) (child : FilterNode) (ctx : AuthCtx)
       (env : ClassEnv) (transform : Option (MetaCur → JsVal → JsVal)) (ps : PState)
       (v : JsVal) (l : List JsVal) (t1 t2 : List String) (ps1 ps2 : PState),
      filterType x child ctx env transform ps = (.ok v, t1, ps1) →
      filterElems xs child ctx env transform ps1 = (.ok l, t2, ps2) →
      filterElems (x :: xs) child ctx env transform ps =
        (.ok (if isUndefined v then l else v :: l), t1 ++ t2, ps2)) ∧
    (∀ (items : List JsVal) (child : FilterNode) (ctx : AuthCtx) (env : ClassEnv)
       (transform : Option (MetaCur → JsVal → JsVal)) (ps : PState)
       (l : List JsVal) (t : List String) (ps1 : PState),
      filterElems items child ctx env transform ps = (.ok l, t, ps1) →
      filterType (.arr items) (.array child) ctx env transform ps =
        (.ok (if l.isEmpty then .undefined else .arr l), t, ps1)) ∧
    (∀ (props : List FProp) (raw : JsVal) (ctx : AuthCtx) (env : ClassEnv)
       (transform : Option (MetaCur → JsVal → JsVal)) (ps : PState)
       (t : List String) (ps1 : PState),
      filterProps props raw [] ctx env transform ps = (.ok [], t, ps1) →
      filterType raw (.cls props) ctx env transform ps = (.ok .undefined, t, ps1)) ∧
    (∀ (raw : ActionResult) (t0 : TType) (info : AuthCtx) (env : ClassEnv)
       (transform : Option (MetaCur → JsVal → JsVal)) (ps : PState),
      raw.status = 200 → raw.body = .arr [] →
      responseAuthorize raw (some t0) info env transform ps =
        (.ok { raw with body := .arr [] }, [], ps)) ∧
    (∀ (raw : ActionResult) (t0 : TType) (info : AuthCtx) (env : ClassEnv)
       (transform : Option (MetaCur → JsVal → JsVal)) (ps : PState)
       (t : List String) (ps1 : PState),
      raw.status = 200 → jsTruthy raw.body = true → isEmptyArr raw.body = false →
      filterType raw.body (compileType env t0 []) info env transform ps =
        (.ok .undefined, t, ps1) →
      responseAuthorize raw (some t0) info env transform ps =
        (.ok { raw with body := .undefined }, t, ps1)) := by
  refine ⟨?_, ?_, ?_, ?_, ?_, ?_, ?_⟩
  · intro raw child ctx env transform ps cn hna hcn
    cases raw with
    | arr es => exact absurd rfl (hna es)
    | null => simp [ctorName] at hcn
    | undefined => simp [ctorName] at hcn
    | num m =>
      simp only [ctorName, Option.some.injEq] at hcn
      subst hcn
      rw [filterType]
      · simp [ctorName]
      · intro es h
        cases h
    | str s =>
      simp only [ctorName, Option.some.injEq] at hcn
      subst hcn
      rw [filterType]
      · simp [ctorName]
      · intro es h
        cases h
    | bool b =>
      simp only [ctorName, Option.some.injEq] at hcn
      subst hcn
      rw [filterType]
      · simp [ctorName]
      · intro es h
        cases h
    | obj fs =>
      simp only [ctorName, Option.some.injEq] at hcn
      subst hcn
      rw [filterType]
      · simp [ctorName]
      · intro es h
        cases h
  · intro child ctx env transform ps
    rw [filterType]
    rw [filterElems]
    rfl
  · intro x xs child ctx env transform ps v l t1 t2 ps1 ps2 h1 h2
    rw [filterElems]
    simp [h1, h2]
  · intro items child ctx env transform ps l t ps1 he
    rw [filterType]
    simp [he]
  · intro props raw ctx env transform ps t ps1 hp
    rw [filterType]
    simp [hp]
  · intro raw t0 info env transform ps hs hb
    rw [responseAuthorize]
    simp [hs, hb, jsTruthy, isEmptyArr]
  · intro raw t0 info env transform ps t ps1 hs htr hne hf
    rw [responseAuthorize]
    simp [hs, htr, hne, hf]

/-- Witness for C7 (amended): a number where an array is expected
throws the naming error; an empty array node filters to `undefined`; an
element filtering to `undefined` is dropped; a top-level empty-array
response passes through as `[]`; a top-level object losing all keys
collapses to an `undefined` body. -/
theorem c7_response_filter_walk_witness :
    filterType (.num 12) (.array .value) infoRead envW none [] =
      (.error (.plain "Action AnimalController.get expecting return value of type Array but got Number"),
       [], []) ∧
    filterType (.arr []) (.array (.cls [])) infoRead envW none [] =
      (.ok .undefined, [], []) ∧
    filterElems [.obj []] (.cls []) infoRead envW none [] = (.ok [], [], []) ∧
    responseAuthorize ⟨200, .arr []⟩ (some .prim) infoRead envW none [] =
      (.ok ⟨200, .arr []⟩, [], []) ∧
    responseAuthorize ⟨200, .obj []⟩ (some (.cls 1)) infoRead envW none [] =
      (.ok ⟨200, .undefined⟩, [], []) := by
  obtain ⟨ha, hb, hc, hd, hcls, hearr, hobj⟩ := c7_response_filter_walk
  have h1 : filterType (.obj []) (.cls []) infoRead envW none [] =
      (.ok .undefined, [], []) := by
    rw [filterType]
    rw [filterProps]
    rfl
  have h2 : filterElems [] (.cls []) infoRead envW none [] = (.ok [], [], []) := by
    rw [filterElems]
  have hf4 : filterType (.obj []) (compileType envW (.cls 1) []) infoRead envW
      none [] = (.ok .undefined, [], []) := by
    rw [compileAnimalNode]
    exact filterEmptyAnimal
  refine ⟨?_, ?_, ?_, ?_, ?_⟩
  · exact ha (.num 12) .value infoRead envW none [] "Number"
      (by intro es h; cases h) rfl
  · exact hb (.cls []) infoRead envW none []
  · exact hc (.obj []) [] (.cls []) infoRead envW none [] .undefined [] [] []
      [] [] h1 h2
  · exact hearr ⟨200, .arr []⟩ .prim infoRead envW none [] rfl rfl
  · exact hobj ⟨200, .obj []⟩ (.cls 1) infoRead envW none [] [] [] rfl rfl rfl hf4
